import Mathlib

/-!
Verification development for the PlayCanvas kinematic character controller
(collide-and-slide sweep in kcc/kccUtils.mjs and the KCC tick in kcc.mjs).
The JavaScript source is shallowly embedded over the real numbers:
vectors become a three-field structure, the physics shape-cast becomes an
abstract oracle function, and the per-tick mutation of the controller
state becomes explicit state passing.
-/

attribute [instance] Classical.propDecidable

noncomputable section

/-- Numeric threshold constant EPS = 1e-8 from kccUtils.mjs. -/
def EPS : ℝ := 1e-8

/-- The clamp helper from kccUtils.mjs: `Math.max(lo, Math.min(hi, v))`. -/
def clamp (v lo hi : ℝ) : ℝ := max lo (min hi v)

/-- Three-component vector over the reals, embedding PlayCanvas `Vec3`. -/
structure Vec3 where
  x : ℝ
  y : ℝ
  z : ℝ

namespace Vec3

/-- Component-wise addition (`Vec3#add`). -/
def add (a b : Vec3) : Vec3 := ⟨a.x + b.x, a.y + b.y, a.z + b.z⟩

/-- Component-wise subtraction (`Vec3#sub`). -/
def sub (a b : Vec3) : Vec3 := ⟨a.x - b.x, a.y - b.y, a.z - b.z⟩

/-- Scalar multiplication (`Vec3#mulScalar`). -/
def mulScalar (a : Vec3) (s : ℝ) : Vec3 := ⟨a.x * s, a.y * s, a.z * s⟩

/-- Dot product (`Vec3#dot`). -/
def dot (a b : Vec3) : ℝ := a.x * b.x + a.y * b.y + a.z * b.z

/-- Squared length (`Vec3#lengthSq`). -/
def lengthSq (a : Vec3) : ℝ := a.x * a.x + a.y * a.y + a.z * a.z

/-- Euclidean length (`Vec3#length`). -/
def length (a : Vec3) : ℝ := Real.sqrt a.lengthSq

/-- Normalization (`Vec3#normalize`): the library leaves the vector
unchanged when its squared length is not positive. -/
def normalize (a : Vec3) : Vec3 :=
  if a.lengthSq > 0 then a.mulScalar (1 / Real.sqrt a.lengthSq) else a

/-- The zero vector. -/
def zero : Vec3 := ⟨0, 0, 0⟩

/-- The world up vector `Vec3.UP`. -/
def up : Vec3 := ⟨0, 1, 0⟩

/-- The world down vector `Vec3.DOWN`. -/
def down : Vec3 := ⟨0, -1, 0⟩

end Vec3

/-- The projectOnPlane helper from kccUtils.mjs: removes the component of
`v` along `n`, with a degenerate-normal guard returning `v` unchanged. -/
def projectOnPlane (v n : Vec3) : Vec3 :=
  if n.lengthSq < EPS then v
  else
    Vec3.mk (v.x - n.x * (v.dot n / n.lengthSq))
            (v.y - n.y * (v.dot n / n.lengthSq))
            (v.z - n.z * (v.dot n / n.lengthSq))

/-- Slope angle in degrees computed in the sweep body:
`Math.acos(clamp(normal·up, -1, 1)) * 180 / Math.PI`. -/
def slopeDegOf (n : Vec3) : ℝ :=
  Real.arccos (clamp (n.dot Vec3.up) (-1) 1) * 180 / Real.pi

/-- Walkability verdict used by the sweep and the ground-snap probe:
strictly less than the configured slope limit. -/
def walkable (n : Vec3) (slopeLimitDeg : ℝ) : Prop :=
  slopeDegOf n < slopeLimitDeg

/-- Flattening of a contact normal to the horizontal plane, as done in the
wall branch of the sweep: zero the y component, then normalize only when
the squared length exceeds EPS. -/
def flattenWall (n : Vec3) : Vec3 :=
  if (Vec3.mk n.x 0 n.z).lengthSq > EPS
  then (Vec3.mk n.x 0 n.z).normalize
  else Vec3.mk n.x 0 n.z

/-- Controller configuration attributes of the KCC script. -/
structure Config where
  speed : ℝ
  gravity : ℝ
  jumpSpeed : ℝ
  airControl : ℝ
  radius : ℝ
  maxIterations : ℕ
  slopeLimitDeg : ℝ
  skin : ℝ
  groundSnap : ℝ
  hover : ℝ

/-- Result of a successful shape cast (ConvexCastResult): only hits whose
body resolves to an entity are reported, so the entity is always present. -/
structure Hit where
  entity : ℕ
  hitFraction : ℝ
  point : Vec3
  normal : Vec3

/-- The shape-sweep oracle: `sphereCast(radius, from, to)`, returning the
closest hit or none. -/
abbrev Oracle := ℝ → Vec3 → Vec3 → Option Hit

/-- All controller state that one sweep pass reads or writes, plus a query
counter instrumenting how many oracle casts were issued. -/
structure SweepState where
  pos : Vec3
  remaining : Vec3
  wallN1 : Option Vec3
  wallN2 : Option Vec3
  velY : ℝ
  grounded : Bool
  groundCandidate : Option ℕ
  steepNormal : Option Vec3
  queries : ℕ

/-- Step distance moved toward the impact point: the hit fraction scaled
onto the travel length, clamped into `[0, totalDist]`, minus the skin
margin, floored at zero. -/
def stepDistOf (cfg : Config) (hit : Hit) (remaining : Vec3) : ℝ :=
  max (clamp (hit.hitFraction * remaining.length) 0 remaining.length - cfg.skin) 0

/-- Advance to just before the impact: move `stepDist` along the travel
direction, but only when that distance exceeds EPS. -/
def stepAdvance (cfg : Config) (hit : Hit) (s : SweepState) : SweepState :=
  if stepDistOf cfg hit s.remaining > EPS
  then { s with pos := s.pos.add (s.remaining.normalize.mulScalar (stepDistOf cfg hit s.remaining)) }
  else s

/-- Vertical (gravity) pass response to a hit: ceiling strike, walkable
landing, or steep-slope slide with sinθ scaling. -/
def verticalResponse (cfg : Config) (hit : Hit) (s : SweepState) : SweepState × Bool :=
  if s.remaining.y > 0 then ({ s with velY := 0 }, true)
  else if s.remaining.y < 0 then
    if walkable hit.normal cfg.slopeLimitDeg then
      let rem1 := projectOnPlane (s.remaining.mulScalar (1 - hit.hitFraction)) hit.normal
      let rem2 := if |rem1.y| < EPS then Vec3.mk rem1.x 0 rem1.z else rem1
      ({ s with grounded := true, groundCandidate := some hit.entity,
                velY := 0, remaining := rem2 }, false)
    else
      let cosT := clamp (hit.normal.dot Vec3.up) (-1) 1
      let sinT := Real.sqrt (max (1 - cosT * cosT) 0)
      let slideDir := (projectOnPlane Vec3.down hit.normal).normalize
      let slideMag := |s.remaining.y| * sinT * (1 - hit.hitFraction)
      let rem := (slideDir.mulScalar slideMag).add (hit.normal.mulScalar cfg.skin)
      ({ s with remaining := rem, steepNormal := some hit.normal }, false)
  else (s, false)

/-- Wall response in the horizontal pass: record up to two distinct
flattened wall normals; a second distinct normal is a corner and zeroes
the remaining displacement, otherwise project the post-contact remainder
onto the locked normal and push out by the skin margin. -/
def wallResponse (cfg : Config) (hit : Hit) (s : SweepState) : SweepState × Bool :=
  let wallN := flattenWall hit.normal
  let w1 : Option Vec3 := match s.wallN1 with
    | none => some wallN
    | some v => some v
  let w2 : Option Vec3 := match s.wallN1 with
    | none => s.wallN2
    | some v => if wallN.dot v < 0.99 then some wallN else s.wallN2
  if w2.isSome then
    ({ s with wallN1 := w1, wallN2 := w2, remaining := Vec3.zero }, false)
  else
    let lockN := w1.getD wallN
    ({ s with wallN1 := w1, wallN2 := w2,
              remaining := (projectOnPlane (s.remaining.mulScalar (1 - hit.hitFraction)) lockN).add
                             (lockN.mulScalar cfg.skin) }, false)

/-- Horizontal (player) pass response to a hit: walkable contact grounds
the agent and projects the remainder; a non-walkable contact is a wall. -/
def horizontalResponse (cfg : Config) (hit : Hit) (s : SweepState) : SweepState × Bool :=
  if walkable hit.normal cfg.slopeLimitDeg then
    ({ s with grounded := true, groundCandidate := some hit.entity,
              remaining := projectOnPlane (s.remaining.mulScalar (1 - hit.hitFraction)) hit.normal }, false)
  else wallResponse cfg hit s

/-- One iteration of the collide-and-slide loop body in `sweep`
(kccUtils.mjs). Returns the successor state and whether the loop breaks.
The query counter increments exactly when a sphere cast is issued. -/
def sweepStep (cfg : Config) (oracle : Oracle) (isVerticalPass : Bool)
    (s : SweepState) : SweepState × Bool :=
  if s.remaining.lengthSq < EPS then (s, true)
  else
    match oracle cfg.radius s.pos (s.pos.add s.remaining) with
    | none => ({ s with queries := s.queries + 1, pos := s.pos.add s.remaining }, true)
    | some hit =>
      let s2 := stepAdvance cfg hit { s with queries := s.queries + 1 }
      if isVerticalPass then verticalResponse cfg hit s2
      else horizontalResponse cfg hit s2

/-- Fuel-bounded runner for the collide-and-slide loop: at most `fuel`
iterations of `sweepStep`, stopping early when the body breaks. -/
def sweepAux (cfg : Config) (oracle : Oracle) (isVerticalPass : Bool) :
    ℕ → SweepState → SweepState
  | 0, s => s
  | Nat.succ n, s =>
    let r := sweepStep cfg oracle isVerticalPass s
    if r.2 then r.1 else sweepAux cfg oracle isVerticalPass n r.1

/-- One full sweep pass (`sweep(kcc, pos, disp, isVerticalPass)`): runs the
loop for `maxIterations` rounds from a fresh per-pass wall record. -/
def sweepRun (cfg : Config) (oracle : Oracle) (isVerticalPass : Bool)
    (s : SweepState) (disp : Vec3) : SweepState :=
  sweepAux cfg oracle isVerticalPass cfg.maxIterations
    { s with remaining := disp, wallN1 := none, wallN2 := none }

/-- The k-th iterate of the loop body, ignoring the break flag; used to
speak about the sequence of remaining displacements a pass produces. -/
def sweepIter (cfg : Config) (oracle : Oracle) (isVerticalPass : Bool)
    (s : SweepState) : ℕ → SweepState
  | 0 => s
  | Nat.succ n => (sweepStep cfg oracle isVerticalPass (sweepIter cfg oracle isVerticalPass s n)).1

/-- A unit normal tilted by `θ` degrees from the up axis, lying in the
x-y plane; used to probe the slope classifier at a prescribed angle. -/
def normalAtDeg (θ : ℝ) : Vec3 :=
  Vec3.mk (Real.sin (θ * Real.pi / 180)) (Real.cos (θ * Real.pi / 180)) 0

/-- Default-attribute configuration of the KCC script (gravity written as
an exact rational). -/
def cfgD : Config :=
  { speed := 6, gravity := -981/100, jumpSpeed := 6, airControl := 1,
    radius := 1/2, maxIterations := 5, slopeLimitDeg := 50,
    skin := 1/100, groundSnap := 3/10, hover := 1/5 }

/-- An oracle that never reports a hit (open space everywhere). -/
def oracleNone : Oracle := fun _ _ _ => none

/-- A sweep-pass start state at the origin with no velocity, no footing
and empty wall records. -/
def st9 : SweepState :=
  { pos := Vec3.zero, remaining := Vec3.zero, wallN1 := none, wallN2 := none,
    velY := 0, grounded := false, groundCandidate := none, steepNormal := none,
    queries := 0 }

/-- A wall hit facing the negative z direction, at fraction one half. -/
def hit4 : Hit :=
  { entity := 1, hitFraction := 1/2, point := Vec3.zero, normal := Vec3.mk 0 0 1 }

/-- An oracle that always reports the hit `hit4`. -/
def o4 : Oracle := fun _ _ _ => some hit4

/-- A mid-pass state that has already locked the wall normal (1,0,0) and
is moving along negative z. -/
def s4 : SweepState :=
  { pos := Vec3.zero, remaining := Vec3.mk 0 0 (-1), wallN1 := some (Vec3.mk 1 0 0),
    wallN2 := none, velY := 0, grounded := false, groundCandidate := none,
    steepNormal := none, queries := 0 }

/-- A wall hit facing the positive x direction, at fraction one half. -/
def hit3 : Hit :=
  { entity := 4, hitFraction := 1/2, point := Vec3.zero, normal := Vec3.mk 1 0 0 }

/-- An oracle that reports the wall hit `hit3` only for sweeps starting
on the plane x = 0 and open space everywhere else, so a pass starting at
the origin sees exactly one wall contact. -/
def o3 : Oracle := fun _ p _ => if p.x = 0 then some hit3 else none

/-- A ceiling hit reported by an always-hitting oracle. -/
def hitC : Hit :=
  { entity := 3, hitFraction := 1/2, point := Vec3.zero, normal := Vec3.mk 0 0 1 }

/-- An oracle that always reports the hit `hitC`. -/
def oC : Oracle := fun _ _ _ => some hitC

/-- A wall hit at fraction zero with normal (1,0,0). -/
def hitW : Hit :=
  { entity := 2, hitFraction := 0, point := Vec3.zero, normal := Vec3.mk 1 0 0 }

/-- An oracle that always reports the hit `hitW`. -/
def oW : Oracle := fun _ _ _ => some hitW

/-- The default configuration with a zero skin margin. -/
def cfgW : Config := { cfgD with skin := 0 }

/-- The family of states an always-hitting wall pass walks through: the
remaining displacement (0,0,1) slides along the locked wall normal and
only the query counter and the wall record change. -/
def sWk (k : ℕ) (w : Option Vec3) : SweepState :=
  { pos := Vec3.zero, remaining := Vec3.mk 0 0 1, wallN1 := w, wallN2 := none,
    velY := 0, grounded := false, groundCandidate := none, steepNormal := none,
    queries := k }

/-- Quaternion over the reals, embedding PlayCanvas `Quat` (x, y, z
imaginary parts and w real part). -/
structure Quat where
  x : ℝ
  y : ℝ
  z : ℝ
  w : ℝ

namespace Quat

/-- Hamilton product `a * b`, as computed by `Quat#mul`. -/
def mul (a b : Quat) : Quat :=
  ⟨a.w * b.x + a.x * b.w + a.y * b.z - a.z * b.y,
   a.w * b.y + a.y * b.w + a.z * b.x - a.x * b.z,
   a.w * b.z + a.z * b.w + a.x * b.y - a.y * b.x,
   a.w * b.w - a.x * b.x - a.y * b.y - a.z * b.z⟩

/-- Squared length of a quaternion. -/
def lengthSq (q : Quat) : ℝ := q.x * q.x + q.y * q.y + q.z * q.z + q.w * q.w

/-- Modelled from the spec: the engine's quaternion inverse (the spec's
platform pose delta is `current * previous⁻¹`); for the unit rotations
the engine stores this is the conjugate, here scaled by the inverse
squared length with a degenerate guard. -/
def invert (q : Quat) : Quat :=
  if q.lengthSq > 0
  then ⟨-q.x / q.lengthSq, -q.y / q.lengthSq, -q.z / q.lengthSq, q.w / q.lengthSq⟩
  else q

/-- Rotation of a vector by a quaternion (`Quat#transformVector`):
`q * v * q⁻¹` expanded exactly as the engine computes it. -/
def transformVector (q : Quat) (v : Vec3) : Vec3 :=
  let ix := q.w * v.x + q.y * v.z - q.z * v.y
  let iy := q.w * v.y + q.z * v.x - q.x * v.z
  let iz := q.w * v.z + q.x * v.y - q.y * v.x
  let iw := -q.x * v.x - q.y * v.y - q.z * v.z
  ⟨ix * q.w + iw * (-q.x) + iy * (-q.z) - iz * (-q.y),
   iy * q.w + iw * (-q.y) + iz * (-q.x) - ix * (-q.z),
   iz * q.w + iw * (-q.z) + ix * (-q.y) - iy * (-q.x)⟩

/-- Modelled from the spec: `setFromEulerAngles(0, deg, 0)` — the
yaw-only quaternion about the world Y axis (with zero pitch and roll the
engine's formula degenerates to x = z = 0, y = sin, w = cos of half the
angle in radians). -/
def fromEulerY (deg : ℝ) : Quat :=
  ⟨0, Real.sin (deg * Real.pi / 180 / 2), 0, Real.cos (deg * Real.pi / 180 / 2)⟩

/-- Modelled from the spec: the yaw (y) component in degrees of the
engine's Euler-angle extraction from a quaternion, with the gimbal guard
folded into the clamp. -/
def eulerYDeg (q : Quat) : ℝ :=
  Real.arcsin (clamp (2 * (q.w * q.y - q.x * q.z)) (-1) 1) * 180 / Real.pi

/-- The yaw-only part of a rotation delta: extract the Euler yaw and
rebuild a pure-Y rotation from it, exactly as KCC.update step 2 does. -/
def yawOnly (q : Quat) : Quat := fromEulerY (eulerYDeg q)

/-- The identity quaternion. -/
def qId : Quat := ⟨0, 0, 0, 1⟩

end Quat

/-- Per-agent controller state across ticks: the entity transform
(position and rotation), the vertical velocity, the pending input, the
footing flags and the remembered ground snapshot. -/
structure KCCState where
  pos : Vec3
  rot : Quat
  velY : ℝ
  horizontal : ℝ
  vertical : ℝ
  jumpPressed : Bool
  yawDelta : ℝ
  grounded : Bool
  wasGrounded : Bool
  groundEntity : Option ℕ
  groundPrevPos : Vec3
  groundPrevRot : Quat
  groundCandidate : Option ℕ
  steepNormal : Option Vec3

/-- Pose lookup for ground entities (the host's transform storage):
identity token to current world position and rotation. -/
abbrev PoseLookup := ℕ → Vec3 × Quat

/-- KCC.update step 1: apply the pending yaw input to the entity's local
rotation and clear it, but only when its magnitude exceeds EPS. -/
def applyYawInput (s : KCCState) : KCCState :=
  if |s.yawDelta| > EPS
  then { s with rot := s.rot.mul (Quat.fromEulerY s.yawDelta), yawDelta := 0 }
  else s

/-- KCC.update step 2: follow moving ground — re-base the agent's
position on the platform's pose delta using only its yaw component, and
rotate the agent's orientation by the same yaw-only quaternion. -/
def platformFollow (lookup : PoseLookup) (s : KCCState) : KCCState :=
  match s.groundEntity with
  | some e =>
    if s.wasGrounded then
      let gp := (lookup e).1
      let gr := (lookup e).2
      let yawQ := Quat.yawOnly (gr.mul s.groundPrevRot.invert)
      let rel := yawQ.transformVector (s.pos.sub s.groundPrevPos)
      { s with rot := yawQ.mul s.rot, pos := gp.add rel }
    else s
  | none => s

/-- KCC.update step 3: a jump while grounded sets the vertical velocity
and flips to airborne; the jump flag is cleared unconditionally. -/
def jumpStep (cfg : Config) (s : KCCState) : KCCState :=
  let s1 := if s.grounded ∧ s.jumpPressed
            then { s with velY := cfg.jumpSpeed, grounded := false }
            else s
  { s1 with jumpPressed := false }

/-- KCC.update step 4: the desired horizontal displacement from the
pending axes — the normalized combination of the entity's forward and
right axes, scaled by speed (air-control-scaled when airborne) and dt. -/
def desiredHorizOf (cfg : Config) (s : KCCState) (dt : ℝ) : Vec3 :=
  let forward := s.rot.transformVector (Vec3.mk 0 0 (-1))
  let right := s.rot.transformVector (Vec3.mk 1 0 0)
  let horizDir :=
    if s.horizontal ≠ 0 ∨ s.vertical ≠ 0
    then ((forward.mulScalar (-s.vertical)).add (right.mulScalar s.horizontal)).normalize
    else Vec3.zero
  let moveSpeed := if s.grounded then cfg.speed else cfg.speed * cfg.airControl
  horizDir.mulScalar (moveSpeed * dt)

/-- KCC.update step 6: clamp the uphill component of the desired
horizontal displacement when a steep-slope normal is remembered. -/
def steepClamp (s : KCCState) (dh : Vec3) : Vec3 :=
  match s.steepNormal with
  | some n =>
    let upDir := (projectOnPlane Vec3.up n).normalize
    let uphill := dh.dot upDir
    if uphill > 0 then dh.sub (upDir.mulScalar uphill) else dh
  | none => dh

/-- KCC.update step 8: the ground-snap probe — only when the passes left
the agent airborne with negative vertical velocity and a positive snap
distance, cast down by `groundSnap`; a walkable hit pulls the agent down
by the clamped hit distance and grounds it. -/
def snapStep (cfg : Config) (oracle : Oracle) (s : SweepState) : SweepState :=
  if s.grounded = false ∧ s.velY < 0 ∧ cfg.groundSnap > 0 then
    let s1 : SweepState := { s with queries := s.queries + 1 }
    match oracle cfg.radius s.pos (s.pos.add (Vec3.up.mulScalar (-cfg.groundSnap))) with
    | some h =>
      if walkable h.normal cfg.slopeLimitDeg then
        { s1 with pos := Vec3.mk s1.pos.x (s1.pos.y - clamp (h.hitFraction * cfg.groundSnap) 0 cfg.groundSnap) s1.pos.z,
                  grounded := true, groundCandidate := some h.entity }
      else s1
    | none => s1
  else s

/-- One full KCC.update tick: yaw, platform follow, jump, input and
gravity integration, steep uphill clamp, the two sweep passes, clearing
the steep flag, ground snap, hover, commit, velocity reset and ground
bookkeeping — in the source's order. -/
def update (cfg : Config) (oracle : Oracle) (lookup : PoseLookup) (dt : ℝ)
    (s : KCCState) : KCCState :=
  let s1 := applyYawInput s
  let s2 := platformFollow lookup s1
  let s3 := jumpStep cfg s2
  let dh0 := desiredHorizOf cfg s3 dt
  let velY1 := s3.velY + cfg.gravity * dt
  let desiredVert := velY1 * dt
  let dh := steepClamp s3 dh0
  let sw0 : SweepState :=
    { pos := s3.pos, remaining := Vec3.zero, wallN1 := none, wallN2 := none,
      velY := velY1, grounded := false, groundCandidate := none,
      steepNormal := s3.steepNormal, queries := 0 }
  let sw1 := if |desiredVert| > EPS then sweepRun cfg oracle true sw0 (Vec3.mk 0 desiredVert 0) else sw0
  let sw2 := if dh.lengthSq > EPS then sweepRun cfg oracle false sw1 dh else sw1
  let sw3 : SweepState := { sw2 with steepNormal := none }
  let sw4 := snapStep cfg oracle sw3
  let finalPos := if sw4.grounded then sw4.pos.add (Vec3.up.mulScalar cfg.hover) else sw4.pos
  let velY2 := if sw4.grounded ∧ sw4.velY < 0 then 0 else sw4.velY
  let ge := if sw4.grounded then sw4.groundCandidate else none
  { s3 with
      pos := finalPos,
      velY := velY2,
      grounded := sw4.grounded,
      wasGrounded := sw4.grounded,
      groundEntity := ge,
      groundPrevPos := match ge with | some e => (lookup e).1 | none => s3.groundPrevPos,
      groundPrevRot := match ge with | some e => (lookup e).2 | none => s3.groundPrevRot,
      groundCandidate := sw4.groundCandidate,
      steepNormal := sw4.steepNormal }

/-- A pose lookup placing every platform at the origin with identity
rotation. -/
def lookup0 : PoseLookup := fun _ => (Vec3.zero, Quat.qId)

/-- A neutral agent state at the origin with a pending rightward axis
input of one. -/
def sIn : KCCState :=
  { pos := Vec3.zero, rot := Quat.qId, velY := 0, horizontal := 1, vertical := 0,
    jumpPressed := false, yawDelta := 0, grounded := false, wasGrounded := false,
    groundEntity := none, groundPrevPos := Vec3.zero, groundPrevRot := Quat.qId,
    groundCandidate := none, steepNormal := none }

/-- A falling agent state at the origin with no pending input. -/
def sA : KCCState :=
  { pos := Vec3.zero, rot := Quat.qId, velY := -1, horizontal := 0, vertical := 0,
    jumpPressed := false, yawDelta := 0, grounded := false, wasGrounded := false,
    groundEntity := none, groundPrevPos := Vec3.zero, groundPrevRot := Quat.qId,
    groundCandidate := none, steepNormal := none }

/-- A grounded rider state standing on platform 0. -/
def sPlat : KCCState :=
  { sIn with wasGrounded := true, groundEntity := some 0 }

/-- A walkable ground-snap hit straight below, at fraction one half. -/
def hitSnap : Hit :=
  { entity := 5, hitFraction := 1/2, point := Vec3.zero, normal := Vec3.mk 0 1 0 }

/-- An oracle that always reports the snap hit `hitSnap`. -/
def oSnap : Oracle := fun _ _ _ => some hitSnap

/-- An airborne falling sweep state for the snap probe. -/
def sSn : SweepState := { st9 with velY := -1 }

theorem Vec3.ext_iff {a b : Vec3} : a = b ↔ a.x = b.x ∧ a.y = b.y ∧ a.z = b.z := by
  constructor
  · intro h; subst h; exact ⟨rfl, rfl, rfl⟩
  · rcases a with ⟨ax, ay, az⟩
    rcases b with ⟨bx, by', bz⟩
    rintro ⟨h1, h2, h3⟩
    simp_all

theorem clamp_eq_self {v lo hi : ℝ} (h1 : lo ≤ v) (h2 : v ≤ hi) :
    clamp v lo hi = v := by
  unfold clamp
  rw [min_eq_right h2, max_eq_right h1]

theorem slopeDegOf_y_zero {n : Vec3} (h : n.y = 0) : slopeDegOf n = 90 := by
  have hd : n.dot Vec3.up = 0 := by simp [Vec3.dot, Vec3.up, h]
  unfold slopeDegOf
  rw [hd, clamp_eq_self (by norm_num) (by norm_num), Real.arccos_zero]
  field_simp
  ring

theorem slopeDegOf_y_one {n : Vec3} (h : n.y = 1) : slopeDegOf n = 0 := by
  have hd : n.dot Vec3.up = 1 := by simp [Vec3.dot, Vec3.up, h]
  unfold slopeDegOf
  rw [hd, clamp_eq_self (by norm_num) (by norm_num), Real.arccos_one]
  simp

theorem slopeDegOf_normalAtDeg {θ : ℝ} (h0 : 0 ≤ θ) (h1 : θ ≤ 180) :
    slopeDegOf (normalAtDeg θ) = θ := by
  have hpi : (0:ℝ) < Real.pi := Real.pi_pos
  have hd : (normalAtDeg θ).dot Vec3.up = Real.cos (θ * Real.pi / 180) := by
    simp [Vec3.dot, Vec3.up, normalAtDeg]
  have hr0 : 0 ≤ θ * Real.pi / 180 := by positivity
  have hr1 : θ * Real.pi / 180 ≤ Real.pi := by
    rw [div_le_iff₀ (by norm_num : (0:ℝ) < 180)]
    nlinarith
  unfold slopeDegOf
  rw [hd, clamp_eq_self (Real.neg_one_le_cos _) (Real.cos_le_one _),
      Real.arccos_cos hr0 hr1]
  field_simp

theorem sweepStep_converged {cfg : Config} {oracle : Oracle} {isV : Bool}
    {s : SweepState} (hlt : s.remaining.lengthSq < EPS) :
    sweepStep cfg oracle isV s = (s, true) := by
  unfold sweepStep
  rw [if_pos hlt]

theorem sweepStep_no_hit {cfg : Config} {oracle : Oracle} {isV : Bool}
    {s : SweepState} (hge : EPS ≤ s.remaining.lengthSq)
    (hOracle : oracle cfg.radius s.pos (s.pos.add s.remaining) = none) :
    sweepStep cfg oracle isV s =
      ({ s with queries := s.queries + 1, pos := s.pos.add s.remaining }, true) := by
  unfold sweepStep
  rw [if_neg (not_lt.mpr hge), hOracle]

theorem sweepStep_hit {cfg : Config} {oracle : Oracle} {isV : Bool}
    {s : SweepState} {hit : Hit} (hge : EPS ≤ s.remaining.lengthSq)
    (hOracle : oracle cfg.radius s.pos (s.pos.add s.remaining) = some hit) :
    sweepStep cfg oracle isV s =
      (if isV then verticalResponse cfg hit (stepAdvance cfg hit { s with queries := s.queries + 1 })
       else horizontalResponse cfg hit (stepAdvance cfg hit { s with queries := s.queries + 1 })) := by
  unfold sweepStep
  rw [if_neg (not_lt.mpr hge), hOracle]

theorem sweepAux_converged {cfg : Config} {oracle : Oracle} {isV : Bool}
    {fuel : ℕ} {s : SweepState} (hlt : s.remaining.lengthSq < EPS) :
    sweepAux cfg oracle isV fuel s = s := by
  cases fuel with
  | zero => rfl
  | succ n => simp only [sweepAux, sweepStep_converged hlt, if_true]

theorem sweepAux_succ_of_no_stop {cfg : Config} {oracle : Oracle} {isV : Bool}
    {n : ℕ} {s : SweepState} (h : (sweepStep cfg oracle isV s).2 = false) :
    sweepAux cfg oracle isV (n + 1) s =
      sweepAux cfg oracle isV n (sweepStep cfg oracle isV s).1 := by
  simp only [sweepAux, h, Bool.false_eq_true, if_false]

/-- C8: slope classification is strict: for a contact normal tilted by
`θ` degrees from the up axis (θ in [0, 180]), the sweep's walkability
verdict holds exactly when `θ < slopeLimitDeg`; in particular a contact
exactly at the limit is non-walkable, one below it is walkable, and one
above it is not. -/
theorem slope_classification_strict (θ limit : ℝ) (h0 : 0 ≤ θ) (h1 : θ ≤ 180) :
    walkable (normalAtDeg θ) limit ↔ θ < limit := by
  unfold walkable
  rw [slopeDegOf_normalAtDeg h0 h1]

theorem slope_classification_strict_witness :
    (¬ walkable (normalAtDeg 50) 50) ∧ walkable (normalAtDeg 49) 50 ∧
      ¬ walkable (normalAtDeg 51) 50 := by
  refine ⟨?_, ?_, ?_⟩
  · rw [slope_classification_strict 50 50 (by norm_num) (by norm_num)]; norm_num
  · rw [slope_classification_strict 49 50 (by norm_num) (by norm_num)]; norm_num
  · rw [slope_classification_strict 51 50 (by norm_num) (by norm_num)]; norm_num

/-- C9 counterexample: an open-space sweep of a displacement whose
squared length is below the 1e-8 convergence threshold does not move the
position at all, so the resolved position is not `start + d` even though
the oracle reports no hit for the swept segment. -/
theorem open_space_counterexample :
    oracleNone cfgD.radius st9.pos (st9.pos.add (Vec3.mk (1/100000) 0 0)) = none ∧
    (sweepRun cfgD oracleNone false st9 (Vec3.mk (1/100000) 0 0)).pos ≠
      st9.pos.add (Vec3.mk (1/100000) 0 0) := by
  refine ⟨rfl, ?_⟩
  have h := @sweepAux_converged cfgD oracleNone false cfgD.maxIterations
      { st9 with remaining := Vec3.mk (1/100000) 0 0, wallN1 := none, wallN2 := none }
      (by norm_num [Vec3.lengthSq, EPS, st9])
  unfold sweepRun
  rw [h]
  intro hEq
  have hx := congrArg Vec3.x hEq
  norm_num [Vec3.add, Vec3.zero, st9] at hx

/-- C9 (amended): open-space identity holds above the convergence
threshold: with at least one iteration available, if the oracle reports
no hit for the swept segment and the displacement's squared length is at
least EPS, the pass applies the full displacement and the resolved
position is exactly `start + d`; a displacement below the threshold is
dropped and the position is returned unchanged. -/
theorem open_space_identity (cfg : Config) (oracle : Oracle) (isV : Bool)
    (s : SweepState) (d : Vec3)
    (hIter : 1 ≤ cfg.maxIterations)
    (hOracle : oracle cfg.radius s.pos (s.pos.add d) = none) :
    (EPS ≤ d.lengthSq → (sweepRun cfg oracle isV s d).pos = s.pos.add d) ∧
    (d.lengthSq < EPS → (sweepRun cfg oracle isV s d).pos = s.pos) := by
  obtain ⟨n, hn⟩ : ∃ n, cfg.maxIterations = n + 1 :=
    ⟨cfg.maxIterations - 1, (Nat.succ_pred_eq_of_pos hIter).symm⟩
  constructor
  · intro hge
    have hstep := @sweepStep_no_hit cfg oracle isV
      { s with remaining := d, wallN1 := none, wallN2 := none }
      hge hOracle
    unfold sweepRun
    rw [hn]
    simp only [sweepAux, hstep, if_true]
  · intro hlt
    have h := @sweepAux_converged cfg oracle isV cfg.maxIterations
      { s with remaining := d, wallN1 := none, wallN2 := none } hlt
    unfold sweepRun
    rw [h]

theorem open_space_identity_witness :
    (sweepRun cfgD oracleNone false st9 (Vec3.mk 1 0 0)).pos =
      st9.pos.add (Vec3.mk 1 0 0) :=
  (open_space_identity cfgD oracleNone false st9 (Vec3.mk 1 0 0)
    (by norm_num [cfgD]) rfl).1 (by norm_num [Vec3.lengthSq, EPS])

theorem stepAdvance_remaining (cfg : Config) (hit : Hit) (s : SweepState) :
    (stepAdvance cfg hit s).remaining = s.remaining := by
  unfold stepAdvance; split_ifs <;> rfl

theorem stepAdvance_wallN1 (cfg : Config) (hit : Hit) (s : SweepState) :
    (stepAdvance cfg hit s).wallN1 = s.wallN1 := by
  unfold stepAdvance; split_ifs <;> rfl

theorem stepAdvance_wallN2 (cfg : Config) (hit : Hit) (s : SweepState) :
    (stepAdvance cfg hit s).wallN2 = s.wallN2 := by
  unfold stepAdvance; split_ifs <;> rfl

theorem stepAdvance_queries (cfg : Config) (hit : Hit) (s : SweepState) :
    (stepAdvance cfg hit s).queries = s.queries := by
  unfold stepAdvance; split_ifs <;> rfl

theorem stepAdvance_steepNormal (cfg : Config) (hit : Hit) (s : SweepState) :
    (stepAdvance cfg hit s).steepNormal = s.steepNormal := by
  unfold stepAdvance; split_ifs <;> rfl

theorem wallResponse_corner {cfg : Config} {hit : Hit} {s : SweepState} {n1 : Vec3}
    (hw1 : s.wallN1 = some n1)
    (hDot : (flattenWall hit.normal).dot n1 < 0.99) :
    wallResponse cfg hit s =
      ({ s with wallN1 := some n1, wallN2 := some (flattenWall hit.normal),
                remaining := Vec3.zero }, false) := by
  unfold wallResponse
  rw [hw1]
  simp only [if_pos hDot, Option.isSome_some, if_true]

/-- C4: corner lock: if within a horizontal pass a first wall normal is
already recorded and a further wall hit produces a flattened normal whose
dot product with it is below 0.99, the iteration sets the remaining
displacement to exactly zero and does not break, and the pass's position
never changes after that iteration, regardless of the displacement's
magnitude or direction. -/
theorem corner_lock (cfg : Config) (oracle : Oracle) (s : SweepState)
    (n1 : Vec3) (hit : Hit)
    (hge : EPS ≤ s.remaining.lengthSq)
    (hOracle : oracle cfg.radius s.pos (s.pos.add s.remaining) = some hit)
    (hWall : ¬ walkable hit.normal cfg.slopeLimitDeg)
    (hw1 : s.wallN1 = some n1)
    (hDot : (flattenWall hit.normal).dot n1 < 0.99) :
    (sweepStep cfg oracle false s).1.remaining = Vec3.zero ∧
    (sweepStep cfg oracle false s).2 = false ∧
    ∀ fuel, (sweepAux cfg oracle false (fuel + 1) s).pos =
      (sweepStep cfg oracle false s).1.pos := by
  have hw1' : (stepAdvance cfg hit { s with queries := s.queries + 1 }).wallN1 = some n1 := by
    rw [stepAdvance_wallN1]; exact hw1
  have hstep : sweepStep cfg oracle false s =
      ({ stepAdvance cfg hit { s with queries := s.queries + 1 } with
           wallN1 := some n1, wallN2 := some (flattenWall hit.normal),
           remaining := Vec3.zero }, false) := by
    rw [sweepStep_hit hge hOracle]
    simp only [Bool.false_eq_true, if_false]
    unfold horizontalResponse
    rw [if_neg hWall]
    exact wallResponse_corner hw1' hDot
  refine ⟨by rw [hstep], by rw [hstep], ?_⟩
  intro fuel
  have hflag : (sweepStep cfg oracle false s).2 = false := by rw [hstep]
  rw [sweepAux_succ_of_no_stop hflag]
  rw [sweepAux_converged]
  rw [hstep]
  norm_num [Vec3.lengthSq, Vec3.zero, EPS]

theorem normalize_of_lengthSq_one {v : Vec3} (h : v.lengthSq = 1) :
    v.normalize = v := by
  unfold Vec3.normalize
  rw [h, if_pos (by norm_num : (1:ℝ) > 0), Real.sqrt_one]
  cases v
  simp [Vec3.mulScalar]

theorem flattenWall_flat_unit {n : Vec3} (hy : n.y = 0) (h : n.lengthSq = 1) :
    flattenWall n = n := by
  rcases n with ⟨nx, ny, nz⟩
  simp only at hy
  subst hy
  unfold flattenWall
  rw [if_pos (by rw [h]; norm_num [EPS])]
  exact normalize_of_lengthSq_one h

theorem verticalResponse_queries (cfg : Config) (hit : Hit) (s : SweepState) :
    (verticalResponse cfg hit s).1.queries = s.queries := by
  unfold verticalResponse; split_ifs <;> rfl

theorem wallResponse_queries (cfg : Config) (hit : Hit) (s : SweepState) :
    (wallResponse cfg hit s).1.queries = s.queries := by
  cases hw : s.wallN1 <;> simp only [wallResponse, hw] <;> split_ifs <;> rfl

theorem wallResponse_snd (cfg : Config) (hit : Hit) (s : SweepState) :
    (wallResponse cfg hit s).2 = false := by
  cases hw : s.wallN1 <;> simp only [wallResponse, hw] <;> split_ifs <;> rfl

theorem horizontalResponse_queries (cfg : Config) (hit : Hit) (s : SweepState) :
    (horizontalResponse cfg hit s).1.queries = s.queries := by
  unfold horizontalResponse
  split_ifs with h
  · rfl
  · exact wallResponse_queries cfg hit s

theorem horizontalResponse_snd (cfg : Config) (hit : Hit) (s : SweepState) :
    (horizontalResponse cfg hit s).2 = false := by
  unfold horizontalResponse
  split_ifs with h
  · rfl
  · exact wallResponse_snd cfg hit s

theorem sweepStep_queries_le (cfg : Config) (oracle : Oracle) (isV : Bool)
    (s : SweepState) : (sweepStep cfg oracle isV s).1.queries ≤ s.queries + 1 := by
  by_cases h1 : s.remaining.lengthSq < EPS
  · rw [sweepStep_converged h1]
    exact Nat.le_succ _
  · cases ho : oracle cfg.radius s.pos (s.pos.add s.remaining) with
    | none =>
      rw [sweepStep_no_hit (not_lt.mp h1) ho]
    | some hit =>
      rw [sweepStep_hit (not_lt.mp h1) ho]
      cases isV
      · simp only [Bool.false_eq_true, if_false]
        rw [horizontalResponse_queries, stepAdvance_queries]
      · simp only [if_true]
        rw [verticalResponse_queries, stepAdvance_queries]

theorem sweepStep_queries_of_hit (cfg : Config) (oracle : Oracle) (isV : Bool)
    (s : SweepState) (h2 : (sweepStep cfg oracle isV s).2 = false) :
    (sweepStep cfg oracle isV s).1.queries = s.queries + 1 := by
  by_cases h1 : s.remaining.lengthSq < EPS
  · rw [sweepStep_converged h1] at h2
    simp at h2
  · cases ho : oracle cfg.radius s.pos (s.pos.add s.remaining) with
    | none =>
      rw [sweepStep_no_hit (not_lt.mp h1) ho] at h2
      simp at h2
    | some hit =>
      rw [sweepStep_hit (not_lt.mp h1) ho]
      cases isV
      · simp only [Bool.false_eq_true, if_false]
        rw [horizontalResponse_queries, stepAdvance_queries]
      · simp only [if_true]
        rw [verticalResponse_queries, stepAdvance_queries]

theorem sweepStep_no_stop_of_horizontal (cfg : Config) (oracle : Oracle)
    (s : SweepState) (hge : EPS ≤ s.remaining.lengthSq)
    (hHit : (oracle cfg.radius s.pos (s.pos.add s.remaining)).isSome = true) :
    (sweepStep cfg oracle false s).2 = false := by
  obtain ⟨hit, ho⟩ := Option.isSome_iff_exists.mp hHit
  rw [sweepStep_hit hge ho]
  simp only [Bool.false_eq_true, if_false]
  exact horizontalResponse_snd cfg hit _

theorem sweepAux_queries_le (cfg : Config) (oracle : Oracle) (isV : Bool) :
    ∀ (fuel : ℕ) (s : SweepState),
      (sweepAux cfg oracle isV fuel s).queries ≤ s.queries + fuel := by
  intro fuel
  induction fuel with
  | zero => intro s; exact Nat.le_refl _
  | succ n ih =>
    intro s
    by_cases h : (sweepStep cfg oracle isV s).2 = true
    · simp only [sweepAux, h, if_true]
      calc (sweepStep cfg oracle isV s).1.queries
          ≤ s.queries + 1 := sweepStep_queries_le cfg oracle isV s
        _ ≤ s.queries + (n + 1) := by omega
    · have h' : (sweepStep cfg oracle isV s).2 = false := by
        revert h; cases (sweepStep cfg oracle isV s).2 <;> simp
      rw [sweepAux_succ_of_no_stop h']
      calc (sweepAux cfg oracle isV n (sweepStep cfg oracle isV s).1).queries
          ≤ (sweepStep cfg oracle isV s).1.queries + n := ih _
        _ ≤ s.queries + 1 + n := by
            have := sweepStep_queries_le cfg oracle isV s
            omega
        _ = s.queries + (n + 1) := by omega

theorem sweepIter_shift (cfg : Config) (oracle : Oracle) (isV : Bool)
    (s : SweepState) : ∀ k, sweepIter cfg oracle isV s (k + 1) =
      sweepIter cfg oracle isV (sweepStep cfg oracle isV s).1 k := by
  intro k
  induction k with
  | zero => rfl
  | succ n ih =>
    show (sweepStep cfg oracle isV (sweepIter cfg oracle isV s (n + 1))).1 = _
    rw [ih]
    rfl

theorem sweepAux_eq_iter (cfg : Config) (oracle : Oracle) (isV : Bool) :
    ∀ (fuel : ℕ) (s : SweepState),
      (∀ k, k < fuel → (sweepStep cfg oracle isV (sweepIter cfg oracle isV s k)).2 = false) →
      sweepAux cfg oracle isV fuel s = sweepIter cfg oracle isV s fuel := by
  intro fuel
  induction fuel with
  | zero => intro s _; rfl
  | succ n ih =>
    intro s h
    have h0 : (sweepStep cfg oracle isV s).2 = false := h 0 (Nat.succ_pos n)
    rw [sweepAux_succ_of_no_stop h0]
    rw [ih _ ?_]
    · rw [← sweepIter_shift]
    · intro k hk
      rw [← sweepIter_shift]
      exact h (k + 1) (Nat.succ_lt_succ hk)

theorem sweepIter_queries (cfg : Config) (oracle : Oracle) (isV : Bool)
    (s : SweepState) :
    ∀ fuel, (∀ k, k < fuel → (sweepStep cfg oracle isV (sweepIter cfg oracle isV s k)).2 = false) →
      (sweepIter cfg oracle isV s fuel).queries = s.queries + fuel := by
  intro fuel
  induction fuel with
  | zero => intro _; rfl
  | succ n ih =>
    intro h
    show (sweepStep cfg oracle isV (sweepIter cfg oracle isV s n)).1.queries = _
    rw [sweepStep_queries_of_hit _ _ _ _ (h n (Nat.lt_succ_self n))]
    rw [ih (fun k hk => h k (Nat.lt_succ_of_lt hk))]
    omega

/-- C6 (amended): bounded iteration: every sweep pass issues at most
`maxIterations` oracle queries; moreover a horizontal pass whose oracle
reports a hit on every query, and whose remaining displacement keeps a
squared length of at least EPS at every iterate, issues exactly
`maxIterations` queries before returning. (A vertical pass may stop
after a single query on a ceiling strike.) -/
theorem bounded_iteration (cfg : Config) (oracle : Oracle) (isV : Bool)
    (s : SweepState) (d : Vec3) :
    (sweepRun cfg oracle isV s d).queries ≤ s.queries + cfg.maxIterations ∧
    (isV = false →
      (∀ r p e, (oracle r p e).isSome = true) →
      (∀ k, k < cfg.maxIterations →
        EPS ≤ (sweepIter cfg oracle isV
          { s with remaining := d, wallN1 := none, wallN2 := none } k).remaining.lengthSq) →
      (sweepRun cfg oracle isV s d).queries = s.queries + cfg.maxIterations) := by
  constructor
  · exact sweepAux_queries_le cfg oracle isV cfg.maxIterations _
  · intro hV hHit hBig
    subst hV
    have hns : ∀ k, k < cfg.maxIterations →
        (sweepStep cfg oracle false (sweepIter cfg oracle false
          { s with remaining := d, wallN1 := none, wallN2 := none } k)).2 = false :=
      fun k hk => sweepStep_no_stop_of_horizontal cfg oracle _ (hBig k hk) (hHit _ _ _)
    unfold sweepRun
    rw [sweepAux_eq_iter cfg oracle false cfg.maxIterations _ hns]
    rw [sweepIter_queries cfg oracle false _ cfg.maxIterations hns]

theorem corner_lock_witness :
    (sweepStep cfgD o4 false s4).1.remaining = Vec3.zero ∧
    (sweepStep cfgD o4 false s4).2 = false ∧
    (sweepAux cfgD o4 false (4 + 1) s4).pos = (sweepStep cfgD o4 false s4).1.pos := by
  have h := corner_lock cfgD o4 s4 (Vec3.mk 1 0 0) hit4
    (by norm_num [s4, Vec3.lengthSq, EPS])
    rfl
    (by unfold walkable
        rw [slopeDegOf_y_zero rfl]
        norm_num [cfgD])
    rfl
    (by rw [flattenWall_flat_unit rfl (by norm_num [Vec3.lengthSq, hit4])]
        norm_num [Vec3.dot, hit4])
  exact ⟨h.1, h.2.1, h.2.2 4⟩

theorem stepDistOf_W : stepDistOf cfgW hitW (Vec3.mk 0 0 1) = 0 := by
  unfold stepDistOf clamp
  norm_num [hitW, cfgW, cfgD, Vec3.length, Vec3.lengthSq, Real.sqrt_one]

theorem hitW_not_walkable : ¬ walkable hitW.normal cfgW.slopeLimitDeg := by
  unfold walkable
  rw [slopeDegOf_y_zero rfl]
  norm_num [cfgW, cfgD]

theorem flattenWall_hitW : flattenWall hitW.normal = Vec3.mk 1 0 0 :=
  flattenWall_flat_unit rfl (by norm_num [Vec3.lengthSq, hitW])

theorem remW_eval :
    (projectOnPlane ((Vec3.mk 0 0 1).mulScalar (1 - hitW.hitFraction))
        (Vec3.mk 1 0 0)).add ((Vec3.mk 1 0 0).mulScalar cfgW.skin) = Vec3.mk 0 0 1 := by
  unfold projectOnPlane
  rw [if_neg (by norm_num [Vec3.lengthSq, EPS])]
  simp [Vec3.ext_iff, Vec3.add, Vec3.mulScalar, Vec3.dot, Vec3.lengthSq, hitW, cfgW, cfgD]

theorem stepW_eval (k : ℕ) (w : Option Vec3)
    (hw : w = none ∨ w = some (Vec3.mk 1 0 0)) :
    sweepStep cfgW oW false (sWk k w) = (sWk (k + 1) (some (Vec3.mk 1 0 0)), false) := by
  have hge : EPS ≤ (sWk k w).remaining.lengthSq := by
    norm_num [sWk, Vec3.lengthSq, EPS]
  rw [sweepStep_hit hge rfl]
  simp only [Bool.false_eq_true, if_false]
  have hq : ({ sWk k w with queries := (sWk k w).queries + 1 } : SweepState) = sWk (k + 1) w := rfl
  rw [hq]
  have hadv : stepAdvance cfgW hitW (sWk (k + 1) w) = sWk (k + 1) w := by
    unfold stepAdvance
    rw [if_neg]
    rw [show (sWk (k + 1) w).remaining = Vec3.mk 0 0 1 from rfl, stepDistOf_W]
    norm_num [EPS]
  rw [hadv]
  unfold horizontalResponse
  rw [if_neg hitW_not_walkable]
  rcases hw with h | h <;> subst h
  · simp only [wallResponse, sWk, flattenWall_hitW, Option.isSome_none,
      Bool.false_eq_true, if_false, Option.getD_some, remW_eval]
  · simp only [wallResponse, sWk, flattenWall_hitW]
    rw [if_neg (by norm_num [Vec3.dot])]
    simp only [Option.isSome_none, Bool.false_eq_true, if_false, Option.getD_some, remW_eval]
    norm_num [Vec3.dot]

theorem iterW_succ : ∀ k, sweepIter cfgW oW false (sWk 0 none) (k + 1) =
    sWk (k + 1) (some (Vec3.mk 1 0 0)) := by
  intro k
  induction k with
  | zero =>
    show (sweepStep cfgW oW false (sWk 0 none)).1 = _
    rw [stepW_eval 0 none (Or.inl rfl)]
  | succ n ih =>
    show (sweepStep cfgW oW false (sweepIter cfgW oW false (sWk 0 none) (n + 1))).1 = _
    rw [ih, stepW_eval (n + 1) _ (Or.inr rfl)]

theorem bounded_iteration_witness :
    (sweepRun cfgW oW false st9 (Vec3.mk 0 0 1)).queries =
      st9.queries + cfgW.maxIterations := by
  refine (bounded_iteration cfgW oW false st9 (Vec3.mk 0 0 1)).2 rfl
    (fun r p e => rfl) ?_
  intro k hk
  show EPS ≤ (sweepIter cfgW oW false (sWk 0 none) k).remaining.lengthSq
  cases k with
  | zero => norm_num [sweepIter, sWk, Vec3.lengthSq, EPS]
  | succ n =>
    rw [iterW_succ n]
    norm_num [sWk, Vec3.lengthSq, EPS]

theorem stepC_full {s : SweepState} (hy : s.remaining.y > 0)
    (hge : EPS ≤ s.remaining.lengthSq) :
    sweepStep cfgD oC true s =
      ({ stepAdvance cfgD hitC { s with queries := s.queries + 1 } with velY := 0 }, true) := by
  rw [sweepStep_hit hge rfl]
  simp only [if_true]
  unfold verticalResponse
  rw [if_pos (show (stepAdvance cfgD hitC { s with queries := s.queries + 1 }).remaining.y > 0 by
    rw [stepAdvance_remaining]; exact hy)]

theorem iterC_remaining : ∀ k, (sweepIter cfgD oC true
    { st9 with remaining := Vec3.mk 0 1 0, wallN1 := none, wallN2 := none } k).remaining =
    Vec3.mk 0 1 0 := by
  intro k
  induction k with
  | zero => rfl
  | succ n ih =>
    show (sweepStep cfgD oC true (sweepIter cfgD oC true _ n)).1.remaining = _
    rw [stepC_full (by rw [ih]; norm_num) (by rw [ih]; norm_num [Vec3.lengthSq, EPS])]
    simp only
    rw [stepAdvance_remaining]
    exact ih

theorem queries_velY_set (s : SweepState) :
    ({ s with velY := 0 } : SweepState).queries = s.queries := rfl

theorem runC_queries :
    (sweepRun cfgD oC true st9 (Vec3.mk 0 1 0)).queries = 1 := by
  unfold sweepRun
  show (sweepAux cfgD oC true 5
    { st9 with remaining := Vec3.mk 0 1 0, wallN1 := none, wallN2 := none }).queries = 1
  rw [show (5 : ℕ) = 4 + 1 from rfl]
  simp only [sweepAux,
    stepC_full (s := { st9 with remaining := Vec3.mk 0 1 0, wallN1 := none, wallN2 := none })
      (by norm_num [st9]) (by norm_num [st9, Vec3.lengthSq, EPS]), if_true]
  rw [queries_velY_set, stepAdvance_queries]
  norm_num [st9]

/-- C6 counterexample: the exact-count half of the claim is false for a
vertical pass: with the always-hitting oracle `oC` and an upward
displacement, the remaining displacement keeps squared length 1 >= EPS at
every iterate, yet the pass stops at the first ceiling strike after a
single query instead of `maxIterations` queries. -/
theorem bounded_iteration_counterexample :
    ¬ (∀ (cfg : Config) (oracle : Oracle) (isV : Bool) (s : SweepState) (d : Vec3),
        (∀ r p e, (oracle r p e).isSome = true) →
        (∀ k, k < cfg.maxIterations →
          EPS ≤ (sweepIter cfg oracle isV
            { s with remaining := d, wallN1 := none, wallN2 := none } k).remaining.lengthSq) →
        (sweepRun cfg oracle isV s d).queries = s.queries + cfg.maxIterations) := by
  intro hclaim
  have hBig : ∀ k, k < cfgD.maxIterations →
      EPS ≤ (sweepIter cfgD oC true
        { st9 with remaining := Vec3.mk 0 1 0, wallN1 := none, wallN2 := none } k).remaining.lengthSq := by
    intro k hk
    rw [iterC_remaining k]
    norm_num [Vec3.lengthSq, EPS]
  have h := hclaim cfgD oC true st9 (Vec3.mk 0 1 0) (fun r p e => rfl) hBig
  rw [runC_queries] at h
  norm_num [st9, cfgD] at h

theorem dot_add (a b n : Vec3) : (a.add b).dot n = a.dot n + b.dot n := by
  simp [Vec3.add, Vec3.dot]; ring

theorem dot_mulScalar (a : Vec3) (c : ℝ) (n : Vec3) :
    (a.mulScalar c).dot n = c * a.dot n := by
  simp [Vec3.mulScalar, Vec3.dot]; ring

theorem dot_self_eq_lengthSq (n : Vec3) : n.dot n = n.lengthSq := rfl

theorem proj_unit_ne_eps {n : Vec3} (hUnit : n.lengthSq = 1) :
    ¬ n.lengthSq < EPS := by rw [hUnit]; norm_num [EPS]

theorem proj_add (a b n : Vec3) :
    projectOnPlane (a.add b) n = (projectOnPlane a n).add (projectOnPlane b n) := by
  unfold projectOnPlane
  split_ifs with h
  · rfl
  · simp [Vec3.ext_iff, Vec3.add, Vec3.dot, Vec3.lengthSq] at h ⊢
    refine ⟨by ring, by ring, by ring⟩

theorem proj_mulScalar (a : Vec3) (c : ℝ) (n : Vec3) :
    projectOnPlane (a.mulScalar c) n = (projectOnPlane a n).mulScalar c := by
  unfold projectOnPlane
  split_ifs with h
  · rfl
  · simp [Vec3.ext_iff, Vec3.mulScalar, Vec3.dot, Vec3.lengthSq] at h ⊢
    refine ⟨by ring, by ring, by ring⟩

theorem dot_proj_zero {n : Vec3} (hUnit : n.lengthSq = 1) (v : Vec3) :
    (projectOnPlane v n).dot n = 0 := by
  unfold projectOnPlane
  rw [if_neg (proj_unit_ne_eps hUnit)]
  have h1 : n.x * n.x + n.y * n.y + n.z * n.z = 1 := hUnit
  simp only [Vec3.dot, Vec3.lengthSq]
  rw [h1]
  simp only [div_one]
  linear_combination (-(v.x * n.x + v.y * n.y + v.z * n.z)) * h1

theorem proj_self_zero {n : Vec3} (hUnit : n.lengthSq = 1) (c : ℝ) :
    projectOnPlane (n.mulScalar c) n = Vec3.zero := by
  unfold projectOnPlane
  rw [if_neg (proj_unit_ne_eps hUnit)]
  have h1 : n.x * n.x + n.y * n.y + n.z * n.z = 1 := hUnit
  simp only [Vec3.mulScalar, Vec3.dot, Vec3.lengthSq, Vec3.zero, Vec3.ext_iff]
  rw [h1]
  simp only [div_one]
  refine ⟨?_, ?_, ?_⟩
  · linear_combination (-(n.x * c)) * h1
  · linear_combination (-(n.y * c)) * h1
  · linear_combination (-(n.z * c)) * h1

theorem proj_idem {n : Vec3} (hUnit : n.lengthSq = 1) (v : Vec3) :
    projectOnPlane (projectOnPlane v n) n = projectOnPlane v n := by
  have hd := dot_proj_zero hUnit v
  unfold projectOnPlane
  rw [if_neg (proj_unit_ne_eps hUnit), if_neg (proj_unit_ne_eps hUnit)]
  unfold projectOnPlane at hd
  rw [if_neg (proj_unit_ne_eps hUnit)] at hd
  simp only [Vec3.ext_iff]
  rw [hd]
  norm_num

theorem mulScalar_add_mulScalar (v : Vec3) (a b : ℝ) :
    (v.mulScalar a).add (v.mulScalar b) = v.mulScalar (a + b) := by
  simp [Vec3.ext_iff, Vec3.add, Vec3.mulScalar]; refine ⟨by ring, by ring, by ring⟩

theorem mulScalar_mulScalar (v : Vec3) (a b : ℝ) :
    (v.mulScalar a).mulScalar b = v.mulScalar (a * b) := by
  simp [Vec3.ext_iff, Vec3.mulScalar]; refine ⟨by ring, by ring, by ring⟩

theorem mulScalar_ne_zero {v : Vec3} {c : ℝ} (hv : v ≠ Vec3.zero) (hc : c ≠ 0) :
    v.mulScalar c ≠ Vec3.zero := by
  intro h
  apply hv
  simp only [Vec3.ext_iff, Vec3.mulScalar, Vec3.zero] at h ⊢
  rcases h with ⟨h1, h2, h3⟩
  exact ⟨by rcases mul_eq_zero.mp h1 with h | h; exact h; exact absurd h hc,
         by rcases mul_eq_zero.mp h2 with h | h; exact h; exact absurd h hc,
         by rcases mul_eq_zero.mp h3 with h | h; exact h; exact absurd h hc⟩

theorem add_sub_cancel_vec (p a b : Vec3) :
    ((p.add a).add b).sub p = a.add b := by
  simp [Vec3.ext_iff, Vec3.add, Vec3.sub]; refine ⟨by ring, by ring, by ring⟩

theorem normalize_eq_of_pos {d : Vec3} (h : 0 < d.lengthSq) :
    d.normalize = d.mulScalar (1 / Real.sqrt d.lengthSq) := by
  unfold Vec3.normalize
  rw [if_pos h]

theorem stepAdvance_of_big {cfg : Config} {hit : Hit} {s : SweepState}
    (h : stepDistOf cfg hit s.remaining > EPS) :
    stepAdvance cfg hit s =
      { s with pos := s.pos.add (s.remaining.normalize.mulScalar (stepDistOf cfg hit s.remaining)) } := by
  unfold stepAdvance
  rw [if_pos h]

theorem wallResponse_first {cfg : Config} {hit : Hit} {s : SweepState}
    (hw1 : s.wallN1 = none) (hw2 : s.wallN2 = none) :
    wallResponse cfg hit s =
      ({ s with wallN1 := some (flattenWall hit.normal), wallN2 := none,
                remaining := (projectOnPlane (s.remaining.mulScalar (1 - hit.hitFraction))
                                (flattenWall hit.normal)).add
                               ((flattenWall hit.normal).mulScalar cfg.skin) }, false) := by
  unfold wallResponse
  rw [hw1, hw2]
  simp only [Option.isSome_none, Bool.false_eq_true, if_false, Option.getD_some]

/-- The generic single-wall two-iteration run: the first iteration hits a
wall, advances to just before impact, projects the post-contact remainder
onto the flattened normal and pushes out by the skin; the second
iteration finds open space and applies that remainder in full. -/
theorem single_wall_pass (cfg : Config) (oracle : Oracle) (s : SweepState)
    (d : Vec3) (hit : Hit)
    (h2 : 2 ≤ cfg.maxIterations)
    (hge : EPS ≤ d.lengthSq)
    (hO1 : oracle cfg.radius s.pos (s.pos.add d) = some hit)
    (hWall : ¬ walkable hit.normal cfg.slopeLimitDeg)
    (hsd : stepDistOf cfg hit d > EPS)
    (hrem1 : EPS ≤ ((projectOnPlane (d.mulScalar (1 - hit.hitFraction)) (flattenWall hit.normal)).add
        ((flattenWall hit.normal).mulScalar cfg.skin)).lengthSq)
    (hO2 : oracle cfg.radius (s.pos.add (d.normalize.mulScalar (stepDistOf cfg hit d)))
        ((s.pos.add (d.normalize.mulScalar (stepDistOf cfg hit d))).add
          ((projectOnPlane (d.mulScalar (1 - hit.hitFraction)) (flattenWall hit.normal)).add
            ((flattenWall hit.normal).mulScalar cfg.skin))) = none) :
    (sweepRun cfg oracle false s d).pos =
      (s.pos.add (d.normalize.mulScalar (stepDistOf cfg hit d))).add
        ((projectOnPlane (d.mulScalar (1 - hit.hitFraction)) (flattenWall hit.normal)).add
          ((flattenWall hit.normal).mulScalar cfg.skin)) := by
  obtain ⟨m, hm⟩ : ∃ m, cfg.maxIterations = m + 1 + 1 := ⟨cfg.maxIterations - 2, by omega⟩
  unfold sweepRun
  rw [hm]
  set s0 : SweepState := { s with remaining := d, wallN1 := none, wallN2 := none } with hs0
  have hge0 : EPS ≤ s0.remaining.lengthSq := hge
  have hO1' : oracle cfg.radius s0.pos (s0.pos.add s0.remaining) = some hit := hO1
  set s1 : SweepState := { s0 with queries := s0.queries + 1 } with hs1
  have hsd1 : stepDistOf cfg hit s1.remaining > EPS := hsd
  have hadv : stepAdvance cfg hit s1 =
      { s1 with pos := s1.pos.add (s1.remaining.normalize.mulScalar (stepDistOf cfg hit s1.remaining)) } :=
    stepAdvance_of_big hsd1
  set s2 : SweepState :=
      { s1 with pos := s1.pos.add (s1.remaining.normalize.mulScalar (stepDistOf cfg hit s1.remaining)) } with hs2
  have hwall2 := @wallResponse_first cfg hit s2 rfl rfl
  set s3 : SweepState :=
      { s2 with wallN1 := some (flattenWall hit.normal), wallN2 := none,
                remaining := (projectOnPlane (s2.remaining.mulScalar (1 - hit.hitFraction))
                                (flattenWall hit.normal)).add
                               ((flattenWall hit.normal).mulScalar cfg.skin) } with hs3
  have e1 : sweepStep cfg oracle false s0 = (s3, false) := by
    rw [sweepStep_hit hge0 hO1']
    simp only [Bool.false_eq_true, if_false]
    rw [← hs1, hadv]
    unfold horizontalResponse
    rw [if_neg hWall]
    exact hwall2
  rw [sweepAux_succ_of_no_stop (by rw [e1])]
  rw [e1]
  have hrem3 : EPS ≤ s3.remaining.lengthSq := hrem1
  have hO2' : oracle cfg.radius s3.pos (s3.pos.add s3.remaining) = none := hO2
  have e2 := @sweepStep_no_hit cfg oracle false s3 hrem3 hO2'
  simp only [sweepAux, e2, if_true]

theorem add_zero_vec (v : Vec3) : v.add Vec3.zero = v := by
  simp [Vec3.ext_iff, Vec3.add, Vec3.zero]

/-- C3 (amended): in a horizontal pass with exactly one wall contact of
unit flattened normal `n`, the resolved displacement's component along
`n` equals `stepDist * (normalize d · n) + skin` (the pre-contact
approach toward the wall plus the skin push-out — in general nonzero),
while its tangential part is the tangential part of the input scaled by
the positive factor `stepDist/|d| + (1 - hitFraction)`, hence nonzero
whenever the input displacement has a tangential part. -/
theorem single_wall_slide (cfg : Config) (oracle : Oracle) (s : SweepState)
    (d : Vec3) (hit : Hit) (n : Vec3)
    (hn : n = flattenWall hit.normal)
    (hUnit : n.lengthSq = 1)
    (hf : hit.hitFraction < 1)
    (h2 : 2 ≤ cfg.maxIterations)
    (hge : EPS ≤ d.lengthSq)
    (hO1 : oracle cfg.radius s.pos (s.pos.add d) = some hit)
    (hWall : ¬ walkable hit.normal cfg.slopeLimitDeg)
    (hsd : stepDistOf cfg hit d > EPS)
    (hrem1 : EPS ≤ ((projectOnPlane (d.mulScalar (1 - hit.hitFraction)) n).add
        (n.mulScalar cfg.skin)).lengthSq)
    (hO2 : oracle cfg.radius (s.pos.add (d.normalize.mulScalar (stepDistOf cfg hit d)))
        ((s.pos.add (d.normalize.mulScalar (stepDistOf cfg hit d))).add
          ((projectOnPlane (d.mulScalar (1 - hit.hitFraction)) n).add
            (n.mulScalar cfg.skin))) = none) :
    (((sweepRun cfg oracle false s d).pos.sub s.pos).dot n =
        stepDistOf cfg hit d * (d.normalize.dot n) + cfg.skin) ∧
    (projectOnPlane ((sweepRun cfg oracle false s d).pos.sub s.pos) n =
        (projectOnPlane d n).mulScalar
          (stepDistOf cfg hit d * (1 / Real.sqrt d.lengthSq) + (1 - hit.hitFraction))) ∧
    (projectOnPlane d n ≠ Vec3.zero →
        projectOnPlane ((sweepRun cfg oracle false s d).pos.sub s.pos) n ≠ Vec3.zero) := by
  subst hn
  have hrun := single_wall_pass cfg oracle s d hit h2 hge hO1 hWall hsd hrem1 hO2
  rw [hrun, add_sub_cancel_vec]
  have hL : 0 < d.lengthSq := lt_of_lt_of_le (by norm_num [EPS]) hge
  have hnorm := normalize_eq_of_pos hL
  have hsd0 : 0 ≤ stepDistOf cfg hit d := by
    unfold stepDistOf; exact le_max_right _ _
  have hsqrt : 0 < Real.sqrt d.lengthSq := Real.sqrt_pos.mpr hL
  have hp2 : projectOnPlane
      ((d.normalize.mulScalar (stepDistOf cfg hit d)).add
        ((projectOnPlane (d.mulScalar (1 - hit.hitFraction)) (flattenWall hit.normal)).add
          ((flattenWall hit.normal).mulScalar cfg.skin))) (flattenWall hit.normal) =
      (projectOnPlane d (flattenWall hit.normal)).mulScalar
        (stepDistOf cfg hit d * (1 / Real.sqrt d.lengthSq) + (1 - hit.hitFraction)) := by
    rw [hnorm, mulScalar_mulScalar]
    simp only [proj_add, proj_mulScalar, proj_self_zero hUnit, proj_idem hUnit]
    rw [add_zero_vec, mulScalar_add_mulScalar]
    congr 1
    ring
  refine ⟨?_, hp2, ?_⟩
  · rw [dot_add, dot_mulScalar, dot_add, dot_proj_zero hUnit, dot_mulScalar,
        dot_self_eq_lengthSq, hUnit]
    ring
  · intro hne
    rw [hp2]
    apply mulScalar_ne_zero hne
    have hpos : 0 < stepDistOf cfg hit d * (1 / Real.sqrt d.lengthSq) + (1 - hit.hitFraction) := by
      have h1 : 0 ≤ stepDistOf cfg hit d * (1 / Real.sqrt d.lengthSq) :=
        mul_nonneg hsd0 (by positivity)
      nlinarith
    exact ne_of_gt hpos

theorem flattenWall_hit3 : flattenWall hit3.normal = Vec3.mk 1 0 0 :=
  flattenWall_flat_unit rfl (by norm_num [hit3, Vec3.lengthSq])

theorem hit3_not_walkable : ¬ walkable hit3.normal cfgD.slopeLimitDeg := by
  unfold walkable
  rw [slopeDegOf_y_zero rfl]
  norm_num [cfgD]

theorem o3_first (e : Vec3) : o3 cfgD.radius st9.pos e = some hit3 := by
  simp [o3, st9, Vec3.zero]

theorem normalize_neg_x : (Vec3.mk (-1:ℝ) 0 0).normalize = Vec3.mk (-1) 0 0 :=
  normalize_of_lengthSq_one (by norm_num [Vec3.lengthSq])

theorem stepDistOf_hit3_negx : stepDistOf cfgD hit3 (Vec3.mk (-1) 0 0) = 49/100 := by
  unfold stepDistOf clamp
  norm_num [hit3, cfgD, Vec3.length, Vec3.lengthSq, Real.sqrt_one]

theorem proj_negx_wall :
    projectOnPlane ((Vec3.mk (-1:ℝ) 0 0).mulScalar (1 - hit3.hitFraction)) (Vec3.mk 1 0 0) =
      Vec3.zero := by
  unfold projectOnPlane
  rw [if_neg (by norm_num [Vec3.lengthSq, EPS])]
  norm_num [Vec3.mulScalar, Vec3.dot, Vec3.lengthSq, Vec3.ext_iff, Vec3.zero, hit3]

/-- C3 counterexample: a head-on horizontal sweep into a single wall
(normal (1,0,0), hit fraction one half, skin 1/100) resolves to a
displacement whose component along the flattened wall normal is
-48/100, not zero: the pre-contact advance toward the wall and the skin
push-out both lie along the normal. -/
theorem single_wall_counterexample :
    ((sweepRun cfgD o3 false st9 (Vec3.mk (-1) 0 0)).pos.sub st9.pos).dot
      (flattenWall hit3.normal) ≠ 0 := by
  have hrun := single_wall_pass cfgD o3 st9 (Vec3.mk (-1) 0 0) hit3
    (by norm_num [cfgD])
    (by norm_num [Vec3.lengthSq, EPS])
    (o3_first _)
    hit3_not_walkable
    (by rw [stepDistOf_hit3_negx]; norm_num [EPS])
    (by rw [flattenWall_hit3, proj_negx_wall]
        norm_num [Vec3.add, Vec3.zero, Vec3.mulScalar, Vec3.lengthSq, EPS, cfgD])
    (by rw [flattenWall_hit3, proj_negx_wall, normalize_neg_x, stepDistOf_hit3_negx]
        show (if _ then _ else _) = _
        rw [if_neg]
        norm_num [st9, Vec3.zero, Vec3.add, Vec3.mulScalar])
  rw [hrun, add_sub_cancel_vec, flattenWall_hit3, normalize_neg_x, stepDistOf_hit3_negx,
      proj_negx_wall]
  norm_num [Vec3.add, Vec3.zero, Vec3.mulScalar, Vec3.dot, cfgD]

theorem sqrt_lengthSq_34 : Real.sqrt ((Vec3.mk (-3:ℝ) 0 4).lengthSq) = 5 := by
  rw [show (Vec3.mk (-3:ℝ) 0 4).lengthSq = 25 by norm_num [Vec3.lengthSq]]
  rw [show (25:ℝ) = 5 ^ 2 by norm_num]
  exact Real.sqrt_sq (by norm_num)

theorem normalize_34 : (Vec3.mk (-3:ℝ) 0 4).normalize =
    (Vec3.mk (-3:ℝ) 0 4).mulScalar (1 / 5) := by
  rw [normalize_eq_of_pos (by norm_num [Vec3.lengthSq]), sqrt_lengthSq_34]

theorem stepDistOf_hit3_34 : stepDistOf cfgD hit3 (Vec3.mk (-3) 0 4) = 249/100 := by
  unfold stepDistOf clamp
  rw [show (Vec3.mk (-3:ℝ) 0 4).length = 5 from sqrt_lengthSq_34]
  norm_num [hit3, cfgD]

theorem proj_34_wall :
    projectOnPlane ((Vec3.mk (-3:ℝ) 0 4).mulScalar (1 - hit3.hitFraction)) (Vec3.mk 1 0 0) =
      Vec3.mk 0 0 2 := by
  unfold projectOnPlane
  rw [if_neg (by norm_num [Vec3.lengthSq, EPS])]
  norm_num [Vec3.mulScalar, Vec3.dot, Vec3.lengthSq, Vec3.ext_iff, hit3]

theorem single_wall_slide_witness :
    (((sweepRun cfgD o3 false st9 (Vec3.mk (-3) 0 4)).pos.sub st9.pos).dot (Vec3.mk 1 0 0) =
        stepDistOf cfgD hit3 (Vec3.mk (-3) 0 4) *
          ((Vec3.mk (-3:ℝ) 0 4).normalize.dot (Vec3.mk 1 0 0)) + cfgD.skin) ∧
    (projectOnPlane ((sweepRun cfgD o3 false st9 (Vec3.mk (-3) 0 4)).pos.sub st9.pos)
        (Vec3.mk 1 0 0) =
      (projectOnPlane (Vec3.mk (-3) 0 4) (Vec3.mk 1 0 0)).mulScalar
        (stepDistOf cfgD hit3 (Vec3.mk (-3) 0 4) *
          (1 / Real.sqrt ((Vec3.mk (-3:ℝ) 0 4).lengthSq)) + (1 - hit3.hitFraction))) ∧
    (projectOnPlane (Vec3.mk (-3) 0 4) (Vec3.mk 1 0 0) ≠ Vec3.zero →
      projectOnPlane ((sweepRun cfgD o3 false st9 (Vec3.mk (-3) 0 4)).pos.sub st9.pos)
        (Vec3.mk 1 0 0) ≠ Vec3.zero) :=
  single_wall_slide cfgD o3 st9 (Vec3.mk (-3) 0 4) hit3 (Vec3.mk 1 0 0)
    flattenWall_hit3.symm
    (by norm_num [Vec3.lengthSq])
    (by norm_num [hit3])
    (by norm_num [cfgD])
    (by norm_num [Vec3.lengthSq, EPS])
    (o3_first _)
    hit3_not_walkable
    (by rw [stepDistOf_hit3_34]; norm_num [EPS])
    (by rw [proj_34_wall]
        norm_num [Vec3.add, Vec3.mulScalar, Vec3.lengthSq, EPS, cfgD])
    (by rw [proj_34_wall, normalize_34, stepDistOf_hit3_34]
        show (if _ then _ else _) = _
        rw [if_neg]
        norm_num [st9, Vec3.zero, Vec3.add, Vec3.mulScalar])

theorem snapStep_steepNormal (cfg : Config) (oracle : Oracle) (s : SweepState) :
    (snapStep cfg oracle s).steepNormal = s.steepNormal := by
  unfold snapStep
  split_ifs with h
  · cases ho : oracle cfg.radius s.pos (s.pos.add (Vec3.up.mulScalar (-cfg.groundSnap))) with
    | none => simp only [ho]
    | some hd => simp only [ho]; split_ifs <;> rfl
  · rfl

theorem applyYawInput_horizontal (s : KCCState) :
    (applyYawInput s).horizontal = s.horizontal := by
  unfold applyYawInput; split_ifs <;> rfl

theorem applyYawInput_vertical (s : KCCState) :
    (applyYawInput s).vertical = s.vertical := by
  unfold applyYawInput; split_ifs <;> rfl

theorem applyYawInput_jumpPressed (s : KCCState) :
    (applyYawInput s).jumpPressed = s.jumpPressed := by
  unfold applyYawInput; split_ifs <;> rfl

theorem applyYawInput_yawDelta_cleared {s : KCCState} (h : EPS < |s.yawDelta|) :
    (applyYawInput s).yawDelta = 0 := by
  unfold applyYawInput
  rw [if_pos h]

theorem platformFollow_horizontal (lookup : PoseLookup) (s : KCCState) :
    (platformFollow lookup s).horizontal = s.horizontal := by
  unfold platformFollow
  cases hg : s.groundEntity <;> simp only [hg] <;> try rfl
  split_ifs <;> rfl

theorem platformFollow_vertical (lookup : PoseLookup) (s : KCCState) :
    (platformFollow lookup s).vertical = s.vertical := by
  unfold platformFollow
  cases hg : s.groundEntity <;> simp only [hg] <;> try rfl
  split_ifs <;> rfl

theorem platformFollow_jumpPressed (lookup : PoseLookup) (s : KCCState) :
    (platformFollow lookup s).jumpPressed = s.jumpPressed := by
  unfold platformFollow
  cases hg : s.groundEntity <;> simp only [hg] <;> try rfl
  split_ifs <;> rfl

theorem platformFollow_yawDelta (lookup : PoseLookup) (s : KCCState) :
    (platformFollow lookup s).yawDelta = s.yawDelta := by
  unfold platformFollow
  cases hg : s.groundEntity <;> simp only [hg] <;> try rfl
  split_ifs <;> rfl

theorem jumpStep_horizontal (cfg : Config) (s : KCCState) :
    (jumpStep cfg s).horizontal = s.horizontal := by
  unfold jumpStep; split_ifs <;> rfl

theorem jumpStep_vertical (cfg : Config) (s : KCCState) :
    (jumpStep cfg s).vertical = s.vertical := by
  unfold jumpStep; split_ifs <;> rfl

theorem jumpStep_yawDelta (cfg : Config) (s : KCCState) :
    (jumpStep cfg s).yawDelta = s.yawDelta := by
  unfold jumpStep; split_ifs <;> rfl

theorem jumpStep_jumpPressed (cfg : Config) (s : KCCState) :
    (jumpStep cfg s).jumpPressed = false := by
  unfold jumpStep; split_ifs <;> rfl

theorem update_horizontal (cfg : Config) (oracle : Oracle) (lookup : PoseLookup)
    (dt : ℝ) (s : KCCState) : (update cfg oracle lookup dt s).horizontal = s.horizontal := by
  simp only [update]
  rw [jumpStep_horizontal, platformFollow_horizontal, applyYawInput_horizontal]

theorem update_vertical (cfg : Config) (oracle : Oracle) (lookup : PoseLookup)
    (dt : ℝ) (s : KCCState) : (update cfg oracle lookup dt s).vertical = s.vertical := by
  simp only [update]
  rw [jumpStep_vertical, platformFollow_vertical, applyYawInput_vertical]

theorem update_jumpPressed (cfg : Config) (oracle : Oracle) (lookup : PoseLookup)
    (dt : ℝ) (s : KCCState) : (update cfg oracle lookup dt s).jumpPressed = false := by
  simp only [update]
  rw [jumpStep_jumpPressed]

/-- C1: the steep-slope normal set by the vertical pass is cleared again
before the same update() returns — `_steepNormal = null` runs after both
sweep passes — so every tick begins with no remembered steep normal and
the uphill clamp of step 6 can never fire on the following tick. -/
theorem steep_normal_cleared_same_tick (cfg : Config) (oracle : Oracle)
    (lookup : PoseLookup) (dt : ℝ) (s : KCCState) :
    (update cfg oracle lookup dt s).steepNormal = none := by
  simp only [update]
  rw [snapStep_steepNormal]

/-- C2 counterexample: the horizontal axis input is not cleared by
update(): starting from a state with horizontal axis 1, the axis is
still nonzero after the tick, so not every pending-input field is back
at its neutral value. -/
theorem input_cleared_counterexample :
    (update cfgD oracleNone lookup0 1 sIn).horizontal ≠ 0 := by
  rw [update_horizontal]
  norm_num [sIn]

/-- C2 (amended): update() clears the jump flag unconditionally and
clears the yaw delta when its magnitude exceeds EPS, but the horizontal
and vertical axis inputs are not cleared — they persist until the next
setInput call. -/
theorem input_consumption (cfg : Config) (oracle : Oracle) (lookup : PoseLookup)
    (dt : ℝ) (s : KCCState) (h : EPS < |s.yawDelta|) :
    (update cfg oracle lookup dt s).jumpPressed = false ∧
    (update cfg oracle lookup dt s).yawDelta = 0 ∧
    (update cfg oracle lookup dt s).horizontal = s.horizontal ∧
    (update cfg oracle lookup dt s).vertical = s.vertical := by
  refine ⟨update_jumpPressed _ _ _ _ _, ?_, update_horizontal _ _ _ _ _,
    update_vertical _ _ _ _ _⟩
  simp only [update]
  rw [jumpStep_yawDelta, platformFollow_yawDelta, applyYawInput_yawDelta_cleared h]

theorem input_consumption_witness :
    (update cfgD oracleNone lookup0 1 { sIn with yawDelta := 1 }).jumpPressed = false ∧
    (update cfgD oracleNone lookup0 1 { sIn with yawDelta := 1 }).yawDelta = 0 ∧
    (update cfgD oracleNone lookup0 1 { sIn with yawDelta := 1 }).horizontal =
      ({ sIn with yawDelta := 1 } : KCCState).horizontal ∧
    (update cfgD oracleNone lookup0 1 { sIn with yawDelta := 1 }).vertical =
      ({ sIn with yawDelta := 1 } : KCCState).vertical :=
  input_consumption cfgD oracleNone lookup0 1 { sIn with yawDelta := 1 }
    (by norm_num [sIn, EPS])

theorem transformVector_fromEulerY_y (deg : ℝ) (v : Vec3) :
    ((Quat.fromEulerY deg).transformVector v).y = v.y := by
  unfold Quat.fromEulerY Quat.transformVector
  simp only
  have h := Real.sin_sq_add_cos_sq (deg * Real.pi / 180 / 2)
  linear_combination v.y * h

/-- C5: a grounded rider on a platform is re-based as
`platformCurrentPosition + yawOnly(deltaRotation) * (riderPosition -
platformPreviousPosition)` and its orientation is premultiplied by the
same yaw-only quaternion; that quaternion is a pure rotation about the
world Y axis (zero x and z components) and preserves the y component of
every vector it transforms, so the platform's pitch and roll never enter
the rider's position or orientation. -/
theorem platform_follow_yaw_only (lookup : PoseLookup) (s : KCCState) (e : ℕ)
    (hw : s.wasGrounded = true) (hg : s.groundEntity = some e) :
    (platformFollow lookup s).pos =
      (lookup e).1.add ((Quat.yawOnly ((lookup e).2.mul s.groundPrevRot.invert)).transformVector
        (s.pos.sub s.groundPrevPos)) ∧
    (platformFollow lookup s).rot =
      (Quat.yawOnly ((lookup e).2.mul s.groundPrevRot.invert)).mul s.rot ∧
    (Quat.yawOnly ((lookup e).2.mul s.groundPrevRot.invert)).x = 0 ∧
    (Quat.yawOnly ((lookup e).2.mul s.groundPrevRot.invert)).z = 0 ∧
    (∀ v : Vec3, ((Quat.yawOnly ((lookup e).2.mul s.groundPrevRot.invert)).transformVector v).y = v.y) := by
  have hpf : platformFollow lookup s =
      { s with rot := (Quat.yawOnly ((lookup e).2.mul s.groundPrevRot.invert)).mul s.rot,
               pos := (lookup e).1.add
                 ((Quat.yawOnly ((lookup e).2.mul s.groundPrevRot.invert)).transformVector
                   (s.pos.sub s.groundPrevPos)) } := by
    unfold platformFollow
    rw [hg]
    simp only [hw, if_true]
  refine ⟨by rw [hpf], by rw [hpf], rfl, rfl, ?_⟩
  intro v
  exact transformVector_fromEulerY_y _ v

theorem platform_follow_yaw_only_witness :
    ((platformFollow lookup0 sPlat).pos =
      (lookup0 0).1.add ((Quat.yawOnly ((lookup0 0).2.mul sPlat.groundPrevRot.invert)).transformVector
        (sPlat.pos.sub sPlat.groundPrevPos)) ∧
    (platformFollow lookup0 sPlat).rot =
      (Quat.yawOnly ((lookup0 0).2.mul sPlat.groundPrevRot.invert)).mul sPlat.rot ∧
    (Quat.yawOnly ((lookup0 0).2.mul sPlat.groundPrevRot.invert)).x = 0 ∧
    (Quat.yawOnly ((lookup0 0).2.mul sPlat.groundPrevRot.invert)).z = 0 ∧
    ((Quat.yawOnly ((lookup0 0).2.mul sPlat.groundPrevRot.invert)).transformVector
        (Vec3.mk 1 2 3)).y = (Vec3.mk (1:ℝ) 2 3).y) := by
  have h := platform_follow_yaw_only lookup0 sPlat 0 rfl rfl
  exact ⟨h.1, h.2.1, h.2.2.1, h.2.2.2.1, h.2.2.2.2 (Vec3.mk 1 2 3)⟩

/-- C7: the ground-snap probe runs only when the passes left the agent
airborne with negative vertical velocity and groundSnap positive (in
particular never when already grounded, where the state is returned
unchanged with no extra query); when it does run it issues exactly one
oracle query, and a walkable hit lowers the resolved y by
`clamp(hitFraction * groundSnap, 0, groundSnap)` and grounds the agent. -/
theorem ground_snap_guard (cfg : Config) (oracle : Oracle) (s : SweepState) :
    (¬ (s.grounded = false ∧ s.velY < 0 ∧ cfg.groundSnap > 0) → snapStep cfg oracle s = s) ∧
    ((s.grounded = false ∧ s.velY < 0 ∧ cfg.groundSnap > 0) →
      (snapStep cfg oracle s).queries = s.queries + 1) ∧
    (∀ h : Hit, s.grounded = false → s.velY < 0 → cfg.groundSnap > 0 →
      oracle cfg.radius s.pos (s.pos.add (Vec3.up.mulScalar (-cfg.groundSnap))) = some h →
      walkable h.normal cfg.slopeLimitDeg →
      (snapStep cfg oracle s).pos.y =
        s.pos.y - clamp (h.hitFraction * cfg.groundSnap) 0 cfg.groundSnap ∧
      (snapStep cfg oracle s).grounded = true) := by
  refine ⟨?_, ?_, ?_⟩
  · intro h
    unfold snapStep
    rw [if_neg h]
  · intro h
    unfold snapStep
    rw [if_pos h]
    cases ho : oracle cfg.radius s.pos (s.pos.add (Vec3.up.mulScalar (-cfg.groundSnap))) with
    | none => simp only [ho]
    | some hd => simp only [ho]; split_ifs <;> rfl
  · intro h hgr hv hsnap ho hwalk
    unfold snapStep
    rw [if_pos ⟨hgr, hv, hsnap⟩, ho]
    simp only [if_pos hwalk]
    exact ⟨trivial, trivial⟩

theorem ground_snap_guard_witness :
    (snapStep cfgD oSnap sSn).pos.y =
      sSn.pos.y - clamp (hitSnap.hitFraction * cfgD.groundSnap) 0 cfgD.groundSnap ∧
    (snapStep cfgD oSnap sSn).grounded = true :=
  (ground_snap_guard cfgD oSnap sSn).2.2 hitSnap rfl
    (by norm_num [sSn, st9])
    (by norm_num [cfgD])
    rfl
    (by unfold walkable
        rw [slopeDegOf_y_one rfl]
        norm_num [cfgD])

/-- C10: every update() that ends airborne forgets the ground: the
remembered ground entity is set back to null and the previous-grounded
flag to false, so the platform-follow re-basing at the start of the next
tick can only ever use the platform the agent stood on at the end of the
immediately preceding tick. -/
theorem airborne_clears_ground (cfg : Config) (oracle : Oracle)
    (lookup : PoseLookup) (dt : ℝ) (s : KCCState)
    (h : (update cfg oracle lookup dt s).grounded = false) :
    (update cfg oracle lookup dt s).groundEntity = none ∧
    (update cfg oracle lookup dt s).wasGrounded = false := by
  simp only [update] at h ⊢
  rw [h]
  simp

theorem snapStep_grounded_oracleNone (cfg : Config) (s : SweepState) :
    (snapStep cfg oracleNone s).grounded = s.grounded := by
  unfold snapStep
  split_ifs <;> rfl

theorem update_airborne_eval :
    (update cfgD oracleNone lookup0 0 sA).grounded = false := by
  have h1 : applyYawInput sA = sA := by
    unfold applyYawInput
    rw [if_neg (by norm_num [sA, EPS])]
  have h2 : platformFollow lookup0 sA = sA := rfl
  have h3 : jumpStep cfgD sA = sA := by
    unfold jumpStep
    rw [if_neg (by norm_num [sA])]
    rfl
  have hdh : steepClamp sA (desiredHorizOf cfgD sA 0) = Vec3.zero := by
    have hd : desiredHorizOf cfgD sA 0 = Vec3.zero := by
      unfold desiredHorizOf
      rw [if_neg (by norm_num [sA])]
      simp [Vec3.mulScalar, Vec3.zero, Vec3.ext_iff]
    rw [hd]
    rfl
  have hv1 : ¬ (|(sA.velY + cfgD.gravity * 0) * 0| > EPS) := by
    norm_num [sA, cfgD, EPS]
  have hv2 : ¬ ((steepClamp sA (desiredHorizOf cfgD sA 0)).lengthSq > EPS) := by
    rw [hdh]
    norm_num [Vec3.lengthSq, Vec3.zero, EPS]
  simp only [update, h1, h2, h3, if_neg hv1, if_neg hv2]
  rw [snapStep_grounded_oracleNone]

theorem airborne_clears_ground_witness :
    (update cfgD oracleNone lookup0 0 sA).groundEntity = none ∧
    (update cfgD oracleNone lookup0 0 sA).wasGrounded = false :=
  airborne_clears_ground cfgD oracleNone lookup0 0 sA update_airborne_eval

end















